import Mathlib

/-!
Verification development for the wedding RSVP intake backend (`app.py`).

The development shallowly embeds the name-normalization routine
(`normalize_name`), the Google-Sheets sync wrapper
(`add_to_google_sheets_via_script`) and the guest-intake endpoint
(`create_guest`) as pure Lean functions.  The relational store is a list of
`Guest` records in insertion order; the SQL queries of the endpoint become
`List.find?` / `List.any` over that list, with SQL `LIKE` embedded as an
executable pattern matcher (`likeMatch`, `%`/`_` wildcards, anchored at both
ends, case-sensitive as on the PostgreSQL deployment target).

The Python library routines used by `normalize_name`
(`unicodedata.normalize('NFD', ·)`, `unicodedata.category`, `str.lower`,
`str.strip`, `str.split`) are modelled on the character repertoire the
application works over: Latin letters with the Spanish diacritics (acute,
tilde, diaeresis) and ASCII whitespace.  Characters outside the modelled
tables are inert (they decompose to themselves, are not combining marks, and
have no case mapping), which matches `unicodedata` on all characters the
guest names in scope contain.
-/

/-- Combining acute accent U+0301. -/
def markAcute : Char := '́'

/-- Combining tilde U+0303. -/
def markTilde : Char := '̃'

/-- Combining diaeresis U+0308. -/
def markDia : Char := '̈'

/-- Model of `unicodedata.category(c) == 'Mn'` restricted to the combining
marks producible by `nfdChar`. -/
def isMn (c : Char) : Bool :=
  c == markAcute || c == markTilde || c == markDia

/-- Model of the canonical decomposition (NFD) of a single character:
the Spanish accented Latin letters decompose into base letter plus combining
mark, every other character decomposes to itself. -/
def nfdChar (c : Char) : List Char :=
  if c = 'á' then ['a', markAcute]
  else if c = 'é' then ['e', markAcute]
  else if c = 'í' then ['i', markAcute]
  else if c = 'ó' then ['o', markAcute]
  else if c = 'ú' then ['u', markAcute]
  else if c = 'ñ' then ['n', markTilde]
  else if c = 'ü' then ['u', markDia]
  else if c = 'Á' then ['A', markAcute]
  else if c = 'É' then ['E', markAcute]
  else if c = 'Í' then ['I', markAcute]
  else if c = 'Ó' then ['O', markAcute]
  else if c = 'Ú' then ['U', markAcute]
  else if c = 'Ñ' then ['N', markTilde]
  else if c = 'Ü' then ['U', markDia]
  else [c]

/-- The characters with a nontrivial entry in `nfdChar`. -/
def accentedKeys : List Char :=
  ['á', 'é', 'í', 'ó', 'ú', 'ñ', 'ü', 'Á', 'É', 'Í', 'Ó', 'Ú', 'Ñ', 'Ü']

/-- Model of `unicodedata.normalize('NFD', s)`: characterwise canonical
decomposition (no reordering is needed on the modelled repertoire). -/
def nfdList : List Char → List Char
  | [] => []
  | c :: cs => nfdChar c ++ nfdList cs

/-- Model of `str.lower` on one character: ASCII case mapping.  Accented
capitals never reach this map inside `normalize_name`, because decomposition
and mark-filtering run first. -/
def pyLower (c : Char) : Char :=
  if c = 'A' then 'a' else if c = 'B' then 'b' else if c = 'C' then 'c'
  else if c = 'D' then 'd' else if c = 'E' then 'e' else if c = 'F' then 'f'
  else if c = 'G' then 'g' else if c = 'H' then 'h' else if c = 'I' then 'i'
  else if c = 'J' then 'j' else if c = 'K' then 'k' else if c = 'L' then 'l'
  else if c = 'M' then 'm' else if c = 'N' then 'n' else if c = 'O' then 'o'
  else if c = 'P' then 'p' else if c = 'Q' then 'q' else if c = 'R' then 'r'
  else if c = 'S' then 's' else if c = 'T' then 't' else if c = 'U' then 'u'
  else if c = 'V' then 'v' else if c = 'W' then 'w' else if c = 'X' then 'x'
  else if c = 'Y' then 'y' else if c = 'Z' then 'z'
  else c

/-- The characters with a nontrivial entry in `pyLower`. -/
def upperKeys : List Char :=
  ['A', 'B', 'C', 'D', 'E', 'F', 'G', 'H', 'I', 'J', 'K', 'L', 'M',
   'N', 'O', 'P', 'Q', 'R', 'S', 'T', 'U', 'V', 'W', 'X', 'Y', 'Z']

/-- Model of the whitespace class used by `str.strip` / `str.split`:
the ASCII whitespace characters. -/
def isSpace (c : Char) : Bool :=
  c == ' ' || c == '\t' || c == '\n' || c == '\r' || c == '\x0b' || c == '\x0c'

/-- Model of `str.strip()` on a character list: drop leading and trailing
whitespace. -/
def pyStrip (l : List Char) : List Char :=
  (((l.dropWhile isSpace).reverse.dropWhile isSpace)).reverse

/-- Model of `str.strip()` on strings. -/
def pyStripStr (s : String) : String :=
  String.mk (pyStrip s.data)

/-- `normalize_name` from `app.py`: NFD-decompose, delete combining marks,
lowercase, strip surrounding whitespace. -/
def normalize_name (s : String) : String :=
  String.mk (pyStrip (((nfdList s.data).filter (fun c => !(isMn c))).map pyLower))

/-- The spec's description of the normalizer, as a composition of the four
named steps: canonical decomposition, combining-mark removal, lowercasing,
whitespace stripping. -/
def specDecompose (s : String) : List Char := nfdList s.data

/-- Spec step: remove every combining-mark (category Mn) character. -/
def specRemoveMarks (l : List Char) : List Char := l.filter (fun c => !(isMn c))

/-- Spec step: lowercase. -/
def specLowercase (l : List Char) : List Char := l.map pyLower

/-- Spec step: strip leading and trailing whitespace. -/
def specStrip (l : List Char) : List Char := pyStrip l

/-- The normalizer exactly as the spec words it. -/
def normalizeSpec (s : String) : String :=
  String.mk (specStrip (specLowercase (specRemoveMarks (specDecompose s))))

/-- A character that the whole normalization pipeline leaves untouched. -/
def StableChar (c : Char) : Prop :=
  nfdChar c = [c] ∧ isMn c = false ∧ pyLower c = c

/-- Model of `str.split()` (whitespace splitting, no empty tokens):
accumulator-based scanner over the character list. -/
def pySplitAux : List Char → List Char → List (List Char)
  | acc, [] => if acc.isEmpty then [] else [acc.reverse]
  | acc, c :: cs =>
    if isSpace c then
      if acc.isEmpty then pySplitAux [] cs else acc.reverse :: pySplitAux [] cs
    else
      pySplitAux (c :: acc) cs

/-- Model of `str.split()` on a character list. -/
def pySplit (l : List Char) : List (List Char) := pySplitAux [] l

/-- SQL `LIKE` matching with explicit fuel (structural recursion so the
kernel can evaluate it): `%` matches any run of characters, `_` any single
character, everything else literally; the pattern is anchored at both ends.
Case-sensitive, as on the PostgreSQL deployment target; escape sequences are
not modelled (no pattern in the application contains a backslash). -/
def likeMatchF : Nat → List Char → List Char → Bool
  | 0, _, _ => false
  | n + 1, p, s =>
    match p with
    | [] => s.isEmpty
    | a :: ps =>
      if a = '%' then
        likeMatchF n ps s ||
          (match s with
           | [] => false
           | _ :: t => likeMatchF n p t)
      else if a = '_' then
        match s with
        | [] => false
        | _ :: t => likeMatchF n ps t
      else
        match s with
        | [] => false
        | c :: t => a == c && likeMatchF n ps t

/-- SQL `LIKE`: `likeMatch pattern subject`. -/
def likeMatch (p s : List Char) : Bool :=
  likeMatchF (p.length + s.length + 1) p s

/-- A `Guest` row of the `guests` table: the columns the intake endpoint
reads or writes (the surrogate id and the timestamps, which are assigned by
the store and never consulted by the endpoint logic, are omitted). -/
structure Guest where
  nombre : String
  apellidos : String
  nombre_normalized : String
  apellidos_normalized : String
  asistencia : String
  acompanado : String
  adultos : Int
  ninos : Int
  autobus : String
  alergias : String
  comentarios : String
deriving DecidableEq, Repr

/-- The submitted request body: each field is present (`some`) or absent
(`none`).  `adultos` / `ninos` are modelled as integers, matching the
`int(...)` coercion the endpoint applies. -/
structure RequestData where
  nombre : Option String
  apellidos : Option String
  asistencia : Option String
  acompanado : Option String
  adultos : Option Int
  ninos : Option Int
  autobus : Option String
  alergias : Option String
  comentarios : Option String
deriving DecidableEq, Repr

/-- Python truthiness check of the endpoint's validation loop:
`field not in data or not data[field]` — absent, or the empty string. -/
def isBlank (o : Option String) : Bool :=
  match o with
  | none => true
  | some s => s == ""

/-- The required fields, in the order the endpoint's loop checks them. -/
def requiredFields : List (String × (RequestData → Option String)) :=
  [("nombre", RequestData.nombre), ("apellidos", RequestData.apellidos),
   ("asistencia", RequestData.asistencia), ("acompanado", RequestData.acompanado)]

/-- The endpoint's validation loop: the first required field that is absent
or empty, if any. -/
def missingRequired (d : RequestData) : Option String :=
  requiredFields.findSome? (fun p => if isBlank (p.2 d) then some p.1 else none)

/-- The spec's reading of the validation: the four fields checked in the
order nombre, apellidos, asistencia, acompanado. -/
def missingRequiredSpec (d : RequestData) : Option String :=
  if isBlank d.nombre then some "nombre"
  else if isBlank d.apellidos then some "apellidos"
  else if isBlank d.asistencia then some "asistencia"
  else if isBlank d.acompanado then some "acompanado"
  else none

/-- Normalized first-name key of a submission:
`normalize_name(data['nombre'].strip())`. -/
def submittedFirstKey (d : RequestData) : String :=
  normalize_name (pyStripStr (d.nombre.getD ""))

/-- Normalized last-names key of a submission:
`normalize_name(data['apellidos'].strip())`. -/
def submittedLastKey (d : RequestData) : String :=
  normalize_name (pyStripStr (d.apellidos.getD ""))

/-- The row the endpoint persists for a submission, mirroring the
`guest_data` dictionary and the `Guest(...)` constructor call. -/
def mkGuest (d : RequestData) : Guest :=
  { nombre := pyStripStr (d.nombre.getD "")
    apellidos := pyStripStr (d.apellidos.getD "")
    nombre_normalized := submittedFirstKey d
    apellidos_normalized := submittedLastKey d
    asistencia := d.asistencia.getD ""
    acompanado := d.acompanado.getD ""
    adultos := d.adultos.getD 0
    ninos := d.ninos.getD 0
    autobus := d.autobus.getD "no"
    alergias := d.alergias.getD ""
    comentarios := d.comentarios.getD "" }

/-- The exact-duplicate filter of stage 1 (and of the uniqueness
constraint): both normalized keys equal. -/
def exactPred (fk lk : String) (g : Guest) : Bool :=
  g.nombre_normalized == fk && g.apellidos_normalized == lk

/-- The stage-2 filter: same normalized first name, and one of the three
`or_`-ed conditions of the query — stored key equals the first surname
token, stored key `LIKE "{token} %"`, or submitted key
`LIKE concat(stored key, ' %')`. -/
def similarPred (fk lk : String) (t : List Char) (g : Guest) : Bool :=
  g.nombre_normalized == fk &&
    (g.apellidos_normalized == String.mk t
      || likeMatch (t ++ [' ', '%']) g.apellidos_normalized.data
      || likeMatch (g.apellidos_normalized.data ++ [' ', '%']) lk.data)

/-- Outcome of the HTTP POST to the Google Apps Script endpoint, as seen by
`add_to_google_sheets_via_script`: an exception, or a response status. -/
inductive SheetsResult where
  | exn
  | status (code : Nat)
deriving DecidableEq, Repr

/-- `add_to_google_sheets_via_script`: `false` when no script URL is
configured, `false` on an exception or a non-200 status, `true` exactly on
status 200.  Total — every failure is caught inside and mapped to `false`,
modelling the function's own `try`/`except` boundary. -/
def add_to_google_sheets_via_script (url : Option String) (net : SheetsResult) : Bool :=
  match url with
  | none => false
  | some _ =>
    match net with
    | .exn => false
    | .status code => code == 200

/-- `add_to_google_sheets`: thin wrapper over the script-based sync. -/
def add_to_google_sheets (url : Option String) (net : SheetsResult) : Bool :=
  add_to_google_sheets_via_script url net

/-- The observable outcome of `POST /api/guests`. -/
inductive GuestResponse where
  | missingField (field : String)
  | conflictExact
  | conflictSimilar (existing : Guest)
  | conflictDb
  | created (g : Guest) (synced : Bool)
deriving DecidableEq, Repr

/-- HTTP status code of each outcome. -/
def statusCode : GuestResponse → Nat
  | .missingField _ => 400
  | .conflictExact => 409
  | .conflictSimilar _ => 409
  | .conflictDb => 409
  | .created _ _ => 201

/-- The user-facing hard-duplicate message (returned both by the stage-1
exact match and by the `IntegrityError` handler). -/
def exactDupMsg : String :=
  "Este nombre ya ha sido registrado. Si necesitas actualizar tu confirmación, por favor contacta con los novios."

/-- The error body of each outcome (`none` for the 201 success body). -/
def errorMessage : GuestResponse → Option String
  | .missingField f => some ("Missing required field: " ++ f)
  | .conflictExact => some exactDupMsg
  | .conflictSimilar g =>
    some ("Posible duplicado detectado. Ya existe un registro similar: \""
      ++ g.nombre ++ " " ++ g.apellidos
      ++ "\". Si eres una persona diferente o necesitas actualizar tu confirmación, por favor contacta con los novios.")
  | .conflictDb => some exactDupMsg
  | .created _ _ => none

/-- The `create_guest` endpoint over an explicit store.  `store` is the
table contents the three application-level queries see, in iteration order;
`concurrent` is whatever a racing writer commits between those queries and
this request's own commit, so the uniqueness constraint at commit time is
checked against `store ++ concurrent`.  A sequential run is `concurrent =
[]`.  `url`/`net` feed the sheets sync.  The stages mirror the source:
validation, exact-match query, the surname-token query with the three
`LIKE`/equality alternatives, insert guarded by the constraint with rollback
to a 409 on `IntegrityError`, then the non-blocking sheets sync. -/
def create_guest (d : RequestData) (store concurrent : List Guest)
    (url : Option String) (net : SheetsResult) : GuestResponse × List Guest :=
  match missingRequired d with
  | some f => (.missingField f, store)
  | none =>
    let fk := submittedFirstKey d
    let lk := submittedLastKey d
    match store.find? (exactPred fk lk) with
    | some _ => (.conflictExact, store)
    | none =>
      let dup : Option Guest :=
        match pySplit lk.data with
        | [] => none
        | t :: _ => store.find? (similarPred fk lk t)
      match dup with
      | some g => (.conflictSimilar g, store)
      | none =>
        let committed := store ++ concurrent
        if committed.any (exactPred fk lk) then
          (.conflictDb, committed)
        else
          (.created (mkGuest d) (add_to_google_sheets url net), committed ++ [mkGuest d])

/-- One sequential intake request: `create_guest` with no concurrent writer,
keeping only the resulting store. -/
def intakeStep (st : List Guest) (op : RequestData × Option String × SheetsResult) :
    List Guest :=
  (create_guest op.1 st [] op.2.1 op.2.2).2

/-- The store reached from empty by a sequence of intake requests. -/
def reachState (ops : List (RequestData × Option String × SheetsResult)) : List Guest :=
  ops.foldl intakeStep []

/-- No two rows share the normalized-name pair (the
`uix_guests_normalized_names` constraint). -/
def UniquePairs (store : List Guest) : Prop :=
  store.Pairwise (fun a b =>
    ¬(a.nombre_normalized = b.nombre_normalized
        ∧ a.apellidos_normalized = b.apellidos_normalized))

/-- A string free of the `LIKE` wildcard characters `%` and `_`. -/
def noWildcards (l : List Char) : Bool :=
  l.all (fun c => !(c == '%') && !(c == '_'))

/-- The three relations of the claimed partial-surname rule, read literally
as equality / starts-with: stored key equals the token, stored key starts
with token-then-space, or the submitted key starts with
stored-key-then-space. -/
def claimedSimilarRel (lk t : List Char) (g : Guest) : Prop :=
  g.apellidos_normalized.data = t
    ∨ (t ++ [' ']).isPrefixOf g.apellidos_normalized.data = true
    ∨ (g.apellidos_normalized.data ++ [' ']).isPrefixOf lk = true

instance (lk t : List Char) (g : Guest) : Decidable (claimedSimilarRel lk t g) := by
  unfold claimedSimilarRel
  infer_instance

/-- Concrete submission: Ana García (accents included). -/
def reqAnaGarcia : RequestData :=
  { nombre := some "Ana", apellidos := some "García", asistencia := some "sí",
    acompanado := some "no", adultos := some 2, ninos := some 0,
    autobus := some "si", alergias := some "", comentarios := some "" }

/-- Concrete submission: Ana García López. -/
def reqAnaGarciaLopez : RequestData :=
  { nombre := some "Ana", apellidos := some "García López", asistencia := some "sí",
    acompanado := some "no", adultos := some 2, ninos := some 0,
    autobus := some "si", alergias := some "", comentarios := some "" }

/-- The stored row produced by `reqAnaGarcia`. -/
def anaGarciaRow : Guest := mkGuest reqAnaGarcia

/-- A stored guest whose normalized surname key is "aq c". -/
def anaAqC : Guest :=
  { nombre := "Ana", apellidos := "Aq C", nombre_normalized := "ana",
    apellidos_normalized := "aq c", asistencia := "sí", acompanado := "no",
    adultos := 0, ninos := 0, autobus := "no", alergias := "", comentarios := "" }

/-- A submission whose surname token contains the `LIKE` wildcard `%`. -/
def reqAnaPercent : RequestData :=
  { nombre := some "Ana", apellidos := some "a% b", asistencia := some "sí",
    acompanado := some "no", adultos := none, ninos := none,
    autobus := none, alergias := none, comentarios := none }

/-- A submission carrying negative adult and child counts. -/
def reqNeg : RequestData :=
  { nombre := some "Ana", apellidos := some "Garcia", asistencia := some "si",
    acompanado := some "no", adultos := some (-1), ninos := some (-2),
    autobus := none, alergias := none, comentarios := none }

/-- A submission with `asistencia` absent. -/
def reqNoAsistencia : RequestData :=
  { nombre := some "Ana", apellidos := some "García", asistencia := none,
    acompanado := some "no", adultos := none, ninos := none,
    autobus := none, alergias := none, comentarios := none }

/-- A submission whose `apellidos` is a lone blank, normalizing to "". -/
def reqBlankApellidos : RequestData :=
  { nombre := some "Ana", apellidos := some " ", asistencia := some "sí",
    acompanado := some "no", adultos := none, ninos := none,
    autobus := none, alergias := none, comentarios := none }

theorem nfdChar_of_not_mem {c : Char} (h : c ∉ accentedKeys) : nfdChar c = [c] := by
  simp only [accentedKeys, List.mem_cons, List.not_mem_nil, or_false, not_or] at h
  obtain ⟨h1, h2, h3, h4, h5, h6, h7, h8, h9, h10, h11, h12, h13, h14⟩ := h
  simp [nfdChar, h1, h2, h3, h4, h5, h6, h7, h8, h9, h10, h11, h12, h13, h14]

theorem pyLower_of_not_mem {c : Char} (h : c ∉ upperKeys) : pyLower c = c := by
  simp only [upperKeys, List.mem_cons, List.not_mem_nil, or_false, not_or] at h
  obtain ⟨g1, g2, g3, g4, g5, g6, g7, g8, g9, g10, g11, g12, g13,
    g14, g15, g16, g17, g18, g19, g20, g21, g22, g23, g24, g25, g26⟩ := h
  simp [pyLower, g1, g2, g3, g4, g5, g6, g7, g8, g9, g10, g11, g12, g13,
    g14, g15, g16, g17, g18, g19, g20, g21, g22, g23, g24, g25, g26]

theorem stableChar_pipeline {c d : Char} (hd : d ∈ nfdChar c) (hmn : isMn d = false) :
    StableChar (pyLower d) := by
  by_cases hc : c ∈ accentedKeys
  · simp only [accentedKeys, List.mem_cons, List.not_mem_nil, or_false] at hc
    rcases hc with rfl | rfl | rfl | rfl | rfl | rfl | rfl |
        rfl | rfl | rfl | rfl | rfl | rfl | rfl <;>
      simp [nfdChar] at hd <;>
      rcases hd with h | h <;> subst h <;>
      first
        | exact absurd hmn (by decide)
        | exact ⟨rfl, rfl, rfl⟩
  · rw [nfdChar_of_not_mem hc] at hd
    rw [List.mem_singleton] at hd
    subst hd
    by_cases hu : d ∈ upperKeys
    · simp only [upperKeys, List.mem_cons, List.not_mem_nil, or_false] at hu
      rcases hu with rfl | rfl | rfl | rfl | rfl | rfl | rfl | rfl | rfl |
          rfl | rfl | rfl | rfl | rfl | rfl | rfl | rfl | rfl | rfl | rfl |
          rfl | rfl | rfl | rfl | rfl | rfl <;>
        exact ⟨rfl, rfl, rfl⟩
    · rw [pyLower_of_not_mem hu]
      exact ⟨nfdChar_of_not_mem hc, hmn, pyLower_of_not_mem hu⟩

theorem nfdList_of_stable {l : List Char} (h : ∀ c ∈ l, StableChar c) :
    nfdList l = l := by
  induction l with
  | nil => rfl
  | cons c cs ih =>
    have hc := h c (by simp)
    show nfdChar c ++ nfdList cs = c :: cs
    rw [hc.1, ih (fun d hd => h d (by simp [hd]))]
    rfl

theorem filter_of_stable {l : List Char} (h : ∀ c ∈ l, StableChar c) :
    l.filter (fun c => !(isMn c)) = l :=
  List.filter_eq_self.mpr (fun c hc => by simp [(h c hc).2.1])

theorem map_of_stable {l : List Char} (h : ∀ c ∈ l, StableChar c) :
    l.map pyLower = l := by
  induction l with
  | nil => rfl
  | cons c cs ih =>
    show pyLower c :: cs.map pyLower = c :: cs
    rw [(h c (by simp)).2.2, ih (fun d hd => h d (by simp [hd]))]

theorem dropWhile_idem (p : Char → Bool) (l : List Char) :
    (l.dropWhile p).dropWhile p = l.dropWhile p := by
  induction l with
  | nil => rfl
  | cons c cs ih =>
    by_cases h : p c
    · simp only [List.dropWhile_cons, h, if_pos, ih, reduceIte]
    · simp [List.dropWhile_cons, h]

theorem head_dropWhile {p : Char → Bool} {l : List Char} {c : Char} {t : List Char}
    (h : l.dropWhile p = c :: t) : p c = false := by
  induction l with
  | nil => simp [List.dropWhile] at h
  | cons a as ih =>
    rw [List.dropWhile_cons] at h
    by_cases ha : p a
    · rw [if_pos ha] at h
      exact ih h
    · rw [if_neg ha] at h
      cases h
      exact Bool.eq_false_iff.mpr ha

theorem pyStrip_left_clean (l : List Char) :
    (pyStrip l).dropWhile isSpace = pyStrip l := by
  have hpre : pyStrip l <+: l.dropWhile isSpace := by
    rw [← List.reverse_suffix]
    unfold pyStrip
    rw [List.reverse_reverse]
    exact List.dropWhile_suffix isSpace
  cases hB : pyStrip l with
  | nil => rfl
  | cons c t =>
    rw [hB] at hpre
    obtain ⟨u, hu⟩ := hpre
    have h2 : l.dropWhile isSpace = c :: (t ++ u) := by
      rw [← hu]; rfl
    have hc : isSpace c = false := head_dropWhile h2
    simp [List.dropWhile_cons, hc]

theorem pyStrip_right_clean (l : List Char) :
    ((pyStrip l).reverse.dropWhile isSpace).reverse = pyStrip l := by
  unfold pyStrip
  rw [List.reverse_reverse, dropWhile_idem]

theorem pyStrip_idem (l : List Char) : pyStrip (pyStrip l) = pyStrip l := by
  show (((pyStrip l).dropWhile isSpace).reverse.dropWhile isSpace).reverse = pyStrip l
  rw [pyStrip_left_clean, pyStrip_right_clean]

theorem mem_pyStrip {c : Char} {l : List Char} (h : c ∈ pyStrip l) : c ∈ l := by
  unfold pyStrip at h
  rw [List.mem_reverse] at h
  have h2 : c ∈ (l.dropWhile isSpace).reverse :=
    ( List.dropWhile_suffix isSpace).sublist.mem h
  rw [List.mem_reverse] at h2
  exact ( List.dropWhile_suffix isSpace).sublist.mem h2

theorem mem_nfdList {c : Char} {l : List Char} (h : c ∈ nfdList l) :
    ∃ a ∈ l, c ∈ nfdChar a := by
  induction l with
  | nil => cases h
  | cons a as ih =>
    show ∃ x ∈ a :: as, c ∈ nfdChar x
    rw [show nfdList (a :: as) = nfdChar a ++ nfdList as from rfl,
      List.mem_append] at h
    rcases h with h | h
    · exact ⟨a, by simp, h⟩
    · obtain ⟨b, hb, hcb⟩ := ih h
      exact ⟨b, by simp [hb], hcb⟩

theorem stable_mem_normalize (s : String) :
    ∀ c ∈ (normalize_name s).data, StableChar c := by
  intro c hc
  have hc2 := mem_pyStrip hc
  rw [List.mem_map] at hc2
  obtain ⟨d, hd, rfl⟩ := hc2
  rw [List.mem_filter] at hd
  obtain ⟨hdm, hdmn⟩ := hd
  obtain ⟨a, _, hda⟩ := mem_nfdList hdm
  exact stableChar_pipeline hda (by simpa using hdmn)

/-- C2: `normalize_name` is exactly the spec pipeline — canonical (NFD)
decomposition, removal of all combining-mark (Mn) characters, lowercasing,
then stripping surrounding whitespace; it is total on strings (a Lean
function of type `String → String`), sends the empty string to itself, and
identifies `"José"`, `"jose "` and `"jose"`. -/
theorem normalize_matches_spec :
    (∀ s : String, normalize_name s = normalizeSpec s)
      ∧ normalize_name "" = ""
      ∧ normalize_name "José" = "jose"
      ∧ normalize_name "jose " = "jose"
      ∧ normalize_name "José" = normalize_name "jose " :=
  ⟨fun _ => rfl, rfl, by decide, by decide, by decide⟩

/-- C3: the normalizer is idempotent — normalizing an already-normalized
string leaves it unchanged. -/
theorem normalize_idempotent :
    ∀ x : String, normalize_name (normalize_name x) = normalize_name x := by
  intro x
  have hstab := stable_mem_normalize x
  show String.mk
      (pyStrip (((nfdList (normalize_name x).data).filter (fun c => !(isMn c))).map pyLower))
    = normalize_name x
  rw [nfdList_of_stable hstab, filter_of_stable hstab, map_of_stable hstab]
  exact congrArg String.mk
    (pyStrip_idem (((nfdList x.data).filter (fun c => !(isMn c))).map pyLower))

theorem likeMatchF_pct {s : List Char} {n : Nat} (h : s.length + 1 < n) :
    likeMatchF n ['%'] s = true := by
  induction s generalizing n with
  | nil =>
    cases n with
    | zero => omega
    | succ m =>
      show (likeMatchF m [] [] || false) = true
      cases m with
      | zero => omega
      | succ k => rfl
  | cons c t ih =>
    cases n with
    | zero => omega
    | succ m =>
      show (likeMatchF m [] (c :: t) || likeMatchF m ['%'] t) = true
      have h1 : likeMatchF m [] (c :: t) = false := by
        cases m with
        | zero => rfl
        | succ k => rfl
      rw [h1, ih (by simp at h ⊢; omega)]
      rfl

theorem likeMatchF_lit {p : List Char} (hw : noWildcards p = true) :
    ∀ (s : List Char) (n : Nat), p.length + s.length + 1 < n →
      likeMatchF n (p ++ ['%']) s = p.isPrefixOf s := by
  induction p with
  | nil =>
    intro s n h
    simpa using likeMatchF_pct (s := s) (n := n) (by simpa using by omega)
  | cons a q ih =>
    intro s n h
    simp only [noWildcards, List.all_cons, Bool.and_eq_true, Bool.not_eq_true',
      beq_eq_false_iff_ne, ne_eq] at hw
    obtain ⟨⟨ha1, ha2⟩, hq⟩ := hw
    cases n with
    | zero => omega
    | succ m =>
      show (if a = '%' then _ else if a = '_' then _ else _) = _
      rw [if_neg ha1, if_neg ha2]
      cases s with
      | nil => rfl
      | cons c t =>
        show (a == c && likeMatchF m (q ++ ['%']) t) = (a == c && q.isPrefixOf t)
        rw [ih (by simp [noWildcards, hq]) t m (by simp at h ⊢; omega)]

theorem likeMatch_wildcard_free {p s : List Char} (hw : noWildcards p = true) :
    likeMatch (p ++ ['%']) s = p.isPrefixOf s := by
  unfold likeMatch
  apply likeMatchF_lit hw
  simp

theorem noWildcards_append_space {t : List Char} (h : noWildcards t = true) :
    noWildcards (t ++ [' ']) = true := by
  simp only [noWildcards, List.all_append] at h ⊢
  simp [h]

/-- On wildcard-free keys, the stage-2 query filter coincides with the
claimed equality / starts-with relations. -/
theorem similarPred_eq_claimed {fk lk : String} {t : List Char} {g : Guest}
    (hwt : noWildcards t = true)
    (hwg : noWildcards g.apellidos_normalized.data = true) :
    (similarPred fk lk t g = true) ↔
      (g.nombre_normalized = fk ∧ claimedSimilarRel lk.data t g) := by
  have e1 : likeMatch (t ++ [' ', '%']) g.apellidos_normalized.data
      = (t ++ [' ']).isPrefixOf g.apellidos_normalized.data := by
    have h := likeMatch_wildcard_free (s := g.apellidos_normalized.data)
      (noWildcards_append_space hwt)
    simpa [List.append_assoc] using h
  have e2 : likeMatch (g.apellidos_normalized.data ++ [' ', '%']) lk.data
      = (g.apellidos_normalized.data ++ [' ']).isPrefixOf lk.data := by
    have h := likeMatch_wildcard_free (s := lk.data)
      (noWildcards_append_space hwg)
    simpa [List.append_assoc] using h
  unfold similarPred claimedSimilarRel
  rw [e1, e2]
  constructor
  · intro h
    simp only [Bool.and_eq_true, Bool.or_eq_true, beq_iff_eq] at h
    obtain ⟨h1, h2⟩ := h
    refine ⟨h1, ?_⟩
    rcases h2 with (h2 | h2) | h2
    · left
      exact congrArg String.data h2
    · right; left; exact h2
    · right; right; exact h2
  · intro ⟨h1, h2⟩
    simp only [Bool.and_eq_true, Bool.or_eq_true, beq_iff_eq]
    refine ⟨h1, ?_⟩
    rcases h2 with h2 | h2 | h2
    · left; left
      exact congrArg String.mk h2
    · left; right; exact h2
    · right; exact h2

theorem missingRequired_eq_spec (d : RequestData) :
    missingRequired d = missingRequiredSpec d := by
  unfold missingRequired requiredFields missingRequiredSpec
  cases h1 : isBlank d.nombre <;> cases h2 : isBlank d.apellidos <;>
    cases h3 : isBlank d.asistencia <;> cases h4 : isBlank d.acompanado <;>
    simp [List.findSome?, h1, h2, h3, h4]

theorem exact_msg_ne_similar_msg (g : Guest) :
    errorMessage .conflictExact ≠ errorMessage (.conflictSimilar g) := by
  intro h
  simp only [errorMessage, Option.some.injEq] at h
  have h2 := congrArg (fun s => s.data.head?) h
  exact absurd h2 (by
    show ¬(some 'E' = some 'P')
    decide)

theorem create_guest_fresh (d : RequestData) (url : Option String) (net : SheetsResult)
    (hval : missingRequired d = none) :
    create_guest d [] [] url net
      = (.created (mkGuest d) (add_to_google_sheets url net), [mkGuest d]) := by
  cases hps : pySplit (submittedLastKey d).data with
  | nil => simp [create_guest, hval, hps]
  | cons a b => simp [create_guest, hval, hps]

theorem create_guest_store_cases (d : RequestData) (store concurrent : List Guest)
    (url : Option String) (net : SheetsResult) :
    (create_guest d store concurrent url net).2 = store
    ∨ (create_guest d store concurrent url net).2 = store ++ concurrent
    ∨ (create_guest d store concurrent url net).2
        = store ++ (concurrent ++ [mkGuest d]) := by
  cases hm : missingRequired d with
  | some f => simp [create_guest, hm]
  | none =>
    cases hex : store.find? (exactPred (submittedFirstKey d) (submittedLastKey d)) with
    | some g => simp [create_guest, hm, hex]
    | none =>
      cases hps : pySplit (submittedLastKey d).data with
      | nil =>
        by_cases hany : (store ++ concurrent).any
            (exactPred (submittedFirstKey d) (submittedLastKey d)) = true
        · simp [create_guest, hm, hex, hps, hany]
        · simp [create_guest, hm, hex, hps, hany]
      | cons a b =>
        cases hsim : store.find? (similarPred (submittedFirstKey d) (submittedLastKey d) a) with
        | some g => simp [create_guest, hm, hex, hps, hsim]
        | none =>
          by_cases hany : (store ++ concurrent).any
              (exactPred (submittedFirstKey d) (submittedLastKey d)) = true
          · simp [create_guest, hm, hex, hps, hsim, hany]
          · simp [create_guest, hm, hex, hps, hsim, hany]

theorem mem_foldl_intake (ops : List (RequestData × Option String × SheetsResult)) :
    ∀ (st : List Guest) (g : Guest),
      g ∈ ops.foldl intakeStep st → g ∈ st ∨ ∃ op ∈ ops, g = mkGuest op.1 := by
  induction ops with
  | nil =>
    intro st g h
    exact Or.inl h
  | cons op ops ih =>
    intro st g h
    rcases ih (intakeStep st op) g h with h1 | ⟨op2, hop2, hg⟩
    · rcases create_guest_store_cases op.1 st [] op.2.1 op.2.2 with e | e | e
      · rw [show intakeStep st op = st from e] at h1
        exact Or.inl h1
      · rw [show intakeStep st op = st ++ [] from e] at h1
        rw [List.append_nil] at h1
        exact Or.inl h1
      · rw [show intakeStep st op = st ++ ([] ++ [mkGuest op.1]) from e] at h1
        rw [List.nil_append, List.mem_append, List.mem_singleton] at h1
        rcases h1 with h1 | h1
        · exact Or.inl h1
        · exact Or.inr ⟨op, by simp, h1⟩
    · exact Or.inr ⟨op2, by simp [hop2], hg⟩

theorem step_preserves_unique (st : List Guest)
    (op : RequestData × Option String × SheetsResult) (h : UniquePairs st) :
    UniquePairs (intakeStep st op) := by
  unfold intakeStep
  cases hm : missingRequired op.1 with
  | some f => simpa [create_guest, hm] using h
  | none =>
    cases hex : st.find? (exactPred (submittedFirstKey op.1) (submittedLastKey op.1)) with
    | some g => simpa [create_guest, hm, hex] using h
    | none =>
      have hcross : ∀ a ∈ st, ¬(a.nombre_normalized = submittedFirstKey op.1
          ∧ a.apellidos_normalized = submittedLastKey op.1) := by
        intro a ha hpair
        have h3 : ¬(exactPred (submittedFirstKey op.1) (submittedLastKey op.1) a = true) := by
          rw [List.find?_eq_none] at hex
          simpa using hex a ha
        exact h3 (by simp [exactPred, hpair.1, hpair.2])
      have hnew : UniquePairs (st ++ [mkGuest op.1]) := by
        rw [UniquePairs, List.pairwise_append]
        refine ⟨h, List.pairwise_singleton _ _, ?_⟩
        intro a ha b hb
        rw [List.mem_singleton] at hb
        subst hb
        exact hcross a ha
      cases hps : pySplit (submittedLastKey op.1).data with
      | nil =>
        by_cases hany : st.any (exactPred (submittedFirstKey op.1) (submittedLastKey op.1)) = true
        · simpa [create_guest, hm, hex, hps, hany] using h
        · simpa [create_guest, hm, hex, hps, hany] using hnew
      | cons a b =>
        cases hsim : st.find? (similarPred (submittedFirstKey op.1) (submittedLastKey op.1) a) with
        | some g => simpa [create_guest, hm, hex, hps, hsim] using h
        | none =>
          by_cases hany : st.any (exactPred (submittedFirstKey op.1) (submittedLastKey op.1)) = true
          · simpa [create_guest, hm, hex, hps, hsim, hany] using h
          · simpa [create_guest, hm, hex, hps, hsim, hany] using hnew

/-- C1 (amended): consider a valid submission whose normalized last-names
key has a first whitespace token `t`, and which passes the exact-match
stage.  Provided the token and every stored last-names key are free of the
SQL `LIKE` wildcards `%` and `_`, a partial-surname conflict is reported iff
some stored guest has the same normalized first-name key and one of the
three claimed relations holds (stored key equals `t`, stored key starts
with `t` + space, or the submitted key starts with the stored key + space);
and when no stored guest matches, the insert proceeds and the request is
created.  Without the wildcard proviso the comparisons are SQL `LIKE`
matches, which can differ (see the counterexample). -/
theorem similar_conflict_iff
    (d : RequestData) (store concurrent : List Guest)
    (url : Option String) (net : SheetsResult)
    (t : List Char) (rest : List (List Char))
    (hval : missingRequired d = none)
    (hsplit : pySplit (submittedLastKey d).data = t :: rest)
    (hexact : store.find? (exactPred (submittedFirstKey d) (submittedLastKey d)) = none)
    (hwt : noWildcards t = true)
    (hws : ∀ g ∈ store, noWildcards g.apellidos_normalized.data = true) :
    ((∃ g, (create_guest d store concurrent url net).1 = .conflictSimilar g) ↔
      ∃ g ∈ store, g.nombre_normalized = submittedFirstKey d
        ∧ claimedSimilarRel (submittedLastKey d).data t g)
    ∧ ((∀ g ∈ store, ¬(g.nombre_normalized = submittedFirstKey d
          ∧ claimedSimilarRel (submittedLastKey d).data t g)) →
        create_guest d store [] url net
          = (.created (mkGuest d) (add_to_google_sheets url net), store ++ [mkGuest d])) := by
  have hpred : ∀ g ∈ store,
      (similarPred (submittedFirstKey d) (submittedLastKey d) t g = true) ↔
        (g.nombre_normalized = submittedFirstKey d
          ∧ claimedSimilarRel (submittedLastKey d).data t g) :=
    fun g hg => similarPred_eq_claimed hwt (hws g hg)
  constructor
  · cases hfind : store.find? (similarPred (submittedFirstKey d) (submittedLastKey d) t) with
    | some g0 =>
      have hmem := List.mem_of_find?_eq_some hfind
      have hp := List.find?_some hfind
      have hresp : (create_guest d store concurrent url net).1 = .conflictSimilar g0 := by
        simp [create_guest, hval, hexact, hsplit, hfind]
      exact ⟨fun _ => ⟨g0, hmem, (hpred g0 hmem).mp hp⟩, fun _ => ⟨g0, hresp⟩⟩
    | none =>
      rw [List.find?_eq_none] at hfind
      have hresp : (create_guest d store concurrent url net).1 = .conflictDb
          ∨ (create_guest d store concurrent url net).1
              = .created (mkGuest d) (add_to_google_sheets url net) := by
        have hfind' : store.find? (similarPred (submittedFirstKey d) (submittedLastKey d) t)
            = none := List.find?_eq_none.mpr hfind
        by_cases hany : (store ++ concurrent).any
            (exactPred (submittedFirstKey d) (submittedLastKey d)) = true
        · left; simp [create_guest, hval, hexact, hsplit, hfind', hany]
        · right; simp [create_guest, hval, hexact, hsplit, hfind', hany]
      constructor
      · intro ⟨g, hgr⟩
        exfalso
        rcases hresp with h | h <;> rw [h] at hgr <;> exact GuestResponse.noConfusion hgr
      · intro ⟨g, hg, hcl⟩
        exact absurd ((hpred g hg).mpr hcl) (by simpa using hfind g hg)
  · intro hno
    have hfind' : store.find? (similarPred (submittedFirstKey d) (submittedLastKey d) t)
        = none :=
      List.find?_eq_none.mpr (fun g hg => by
        simp only [Bool.not_eq_true]
        rw [Bool.eq_false_iff]
        intro hb
        exact hno g hg ((hpred g hg).mp hb))
    have hany : store.any (exactPred (submittedFirstKey d) (submittedLastKey d)) = false := by
      rw [List.find?_eq_none] at hexact
      exact List.any_eq_false.mpr (fun g hg => by simpa using hexact g hg)
    simp [create_guest, hval, hexact, hsplit, hfind', hany]

/-- C1 counterexample: against a store holding `(ana, aq c)`, the submission
`(Ana, a% b)` passes the exact stage, its surname token is `a%`, and none of
the three claimed relations holds for the stored guest — yet the code
reports a partial-surname conflict, because the token's `%` acts as a SQL
`LIKE` wildcard in the query pattern `"a% %"`. -/
theorem similar_conflict_like_cex :
    (create_guest reqAnaPercent [anaAqC] [] none .exn).1 = .conflictSimilar anaAqC
    ∧ List.find? (exactPred (submittedFirstKey reqAnaPercent)
        (submittedLastKey reqAnaPercent)) [anaAqC] = none
    ∧ pySplit (submittedLastKey reqAnaPercent).data = [['a', '%'], ['b']]
    ∧ anaAqC.nombre_normalized = submittedFirstKey reqAnaPercent
    ∧ ¬(claimedSimilarRel (submittedLastKey reqAnaPercent).data ['a', '%'] anaAqC) := by
  decide

/-- C1 witness: the amended theorem applied to the spec's own example —
stored `(Ana, García)`, submitted `(Ana, García López)`. -/
theorem similar_conflict_iff_witness :
    ((∃ g, (create_guest reqAnaGarciaLopez [anaGarciaRow] [] none .exn).1
        = .conflictSimilar g) ↔
      ∃ g ∈ [anaGarciaRow],
        g.nombre_normalized = submittedFirstKey reqAnaGarciaLopez
          ∧ claimedSimilarRel (submittedLastKey reqAnaGarciaLopez).data
              ['g', 'a', 'r', 'c', 'i', 'a'] g)
    ∧ ((∀ g ∈ [anaGarciaRow],
          ¬(g.nombre_normalized = submittedFirstKey reqAnaGarciaLopez
            ∧ claimedSimilarRel (submittedLastKey reqAnaGarciaLopez).data
                ['g', 'a', 'r', 'c', 'i', 'a'] g)) →
        create_guest reqAnaGarciaLopez [anaGarciaRow] [] none .exn
          = (.created (mkGuest reqAnaGarciaLopez) (add_to_google_sheets none .exn),
             [anaGarciaRow] ++ [mkGuest reqAnaGarciaLopez])) :=
  similar_conflict_iff reqAnaGarciaLopez [anaGarciaRow] [] none .exn
    ['g', 'a', 'r', 'c', 'i', 'a'] [['l', 'o', 'p', 'e', 'z']]
    (by decide) (by decide) (by decide) (by decide) (by decide)

/-- C4: the exact-match stage runs first and wins — a stored row with both
normalized keys equal makes the endpoint answer 409 with the exact-duplicate
message (which differs from every partial-duplicate message) and leave the
store unchanged; and submitting any valid body twice from an empty store
gives 201 then 409. -/
theorem exact_match_stage_first :
    (∀ (d : RequestData) (store concurrent : List Guest) (url : Option String)
        (net : SheetsResult) (g : Guest),
      missingRequired d = none →
      store.find? (exactPred (submittedFirstKey d) (submittedLastKey d)) = some g →
      create_guest d store concurrent url net = (.conflictExact, store)
        ∧ statusCode .conflictExact = 409
        ∧ errorMessage .conflictExact = some exactDupMsg
        ∧ ∀ g', errorMessage .conflictExact ≠ errorMessage (.conflictSimilar g'))
    ∧ (∀ (d : RequestData) (url : Option String) (net : SheetsResult),
      missingRequired d = none →
      statusCode (create_guest d [] [] url net).1 = 201
        ∧ create_guest d (create_guest d [] [] url net).2 [] url net
            = (.conflictExact, [mkGuest d])
        ∧ statusCode (create_guest d (create_guest d [] [] url net).2 [] url net).1
            = 409) := by
  constructor
  · intro d store concurrent url net g hval hex
    exact ⟨by simp [create_guest, hval, hex], rfl, rfl, exact_msg_ne_similar_msg⟩
  · intro d url net hval
    have h1 := create_guest_fresh d url net hval
    have hp : exactPred (submittedFirstKey d) (submittedLastKey d) (mkGuest d) = true := by
      simp [exactPred, mkGuest, submittedFirstKey, submittedLastKey]
    have hfind : List.find? (exactPred (submittedFirstKey d) (submittedLastKey d))
        [mkGuest d] = some (mkGuest d) := by
      simp [List.find?_cons_of_pos, hp]
    have h2 : create_guest d [mkGuest d] [] url net = (.conflictExact, [mkGuest d]) := by
      simp [create_guest, hval, hfind]
    refine ⟨by rw [h1]; rfl, ?_, ?_⟩
    · rw [h1]
      exact h2
    · rw [h1]
      show statusCode (create_guest d [mkGuest d] [] url net).1 = 409
      rw [h2]
      rfl

/-- C5: uniqueness invariant — every store reachable from empty by intake
requests has pairwise-distinct normalized-name pairs, and an intake request
whose normalized pair is already present never changes the store. -/
theorem unique_pairs_invariant :
    (∀ ops, UniquePairs (reachState ops))
    ∧ (∀ (d : RequestData) (st : List Guest) (url : Option String) (net : SheetsResult),
        (∃ g ∈ st, g.nombre_normalized = submittedFirstKey d
          ∧ g.apellidos_normalized = submittedLastKey d) →
        (create_guest d st [] url net).2 = st) := by
  constructor
  · have key : ∀ (ops : List (RequestData × Option String × SheetsResult))
        (st : List Guest), UniquePairs st → UniquePairs (ops.foldl intakeStep st) := by
      intro ops
      induction ops with
      | nil => intro st h; exact h
      | cons op ops ih =>
        intro st h
        exact ih (intakeStep st op) (step_preserves_unique st op h)
    exact fun ops => key ops [] List.Pairwise.nil
  · intro d st url net ⟨g, hg, h1, h2⟩
    cases hm : missingRequired d with
    | some f => simp [create_guest, hm]
    | none =>
      cases hex : st.find? (exactPred (submittedFirstKey d) (submittedLastKey d)) with
      | some g' => simp [create_guest, hm, hex]
      | none =>
        exfalso
        rw [List.find?_eq_none] at hex
        exact absurd (by simp [exactPred, h1, h2] :
            exactPred (submittedFirstKey d) (submittedLastKey d) g = true)
          (by simpa using hex g hg)

/-- C5 witness: the invariant on a two-request history, and the no-insert
guard applied to a store already holding the submission's pair. -/
theorem unique_pairs_invariant_witness :
    UniquePairs (reachState
      [(reqAnaGarcia, (none : Option String), SheetsResult.exn),
       (reqAnaGarciaLopez, (none : Option String), SheetsResult.exn)])
    ∧ (create_guest reqAnaGarcia [anaGarciaRow] [] none .exn).2 = [anaGarciaRow] :=
  ⟨unique_pairs_invariant.1
      [(reqAnaGarcia, (none : Option String), SheetsResult.exn),
       (reqAnaGarciaLopez, (none : Option String), SheetsResult.exn)],
   unique_pairs_invariant.2 reqAnaGarcia [anaGarciaRow] none .exn
      ⟨anaGarciaRow, by decide, by decide, by decide⟩⟩

/-- C6: when the commit-time uniqueness check fails because a concurrent
writer committed the same normalized pair after the application-level
queries ran, the endpoint rolls back (the new row is not persisted) and
returns 409 with the very same user-facing message as a stage-1 exact-match
detection — not a 500. -/
theorem db_constraint_conflict :
    ∀ (d : RequestData) (store concurrent : List Guest) (url : Option String)
      (net : SheetsResult),
    missingRequired d = none →
    store.find? (exactPred (submittedFirstKey d) (submittedLastKey d)) = none →
    (∀ t rest, pySplit (submittedLastKey d).data = t :: rest →
      store.find? (similarPred (submittedFirstKey d) (submittedLastKey d) t) = none) →
    (store ++ concurrent).any (exactPred (submittedFirstKey d) (submittedLastKey d))
        = true →
    create_guest d store concurrent url net = (.conflictDb, store ++ concurrent)
      ∧ statusCode .conflictDb = 409
      ∧ errorMessage .conflictDb = errorMessage .conflictExact
      ∧ statusCode .conflictDb ≠ 500 := by
  intro d store concurrent url net hval hexact hsim hany
  refine ⟨?_, rfl, rfl, by decide⟩
  cases hps : pySplit (submittedLastKey d).data with
  | nil => simp [create_guest, hval, hexact, hps, hany]
  | cons a b => simp [create_guest, hval, hexact, hps, hsim a b hps, hany]

/-- C6 witness: an empty store, with a concurrent writer committing the same
guest between the checks and the commit. -/
theorem db_constraint_conflict_witness :
    create_guest reqAnaGarcia [] [mkGuest reqAnaGarcia] none .exn
        = (.conflictDb, [] ++ [mkGuest reqAnaGarcia])
      ∧ statusCode .conflictDb = 409
      ∧ errorMessage .conflictDb = errorMessage .conflictExact
      ∧ statusCode .conflictDb ≠ 500 :=
  db_constraint_conflict reqAnaGarcia [] [mkGuest reqAnaGarcia] none .exn
    (by decide) rfl (fun _ _ _ => rfl) (by decide)

/-- C7: the sheets sync is total and returns `true` exactly on a configured
URL with an acknowledged 200 status; and when it returns `false` after a
successful insert, the endpoint still answers 201 with the guest persisted
and `synced_to_sheets = false`. -/
theorem sheets_sync_isolation :
    (∀ (url : Option String) (net : SheetsResult),
      add_to_google_sheets_via_script url net = true ↔
        (url ≠ none ∧ net = .status 200))
    ∧ (∀ (d : RequestData) (store : List Guest) (url : Option String)
        (net : SheetsResult),
      missingRequired d = none →
      store.find? (exactPred (submittedFirstKey d) (submittedLastKey d)) = none →
      (∀ t rest, pySplit (submittedLastKey d).data = t :: rest →
        store.find? (similarPred (submittedFirstKey d) (submittedLastKey d) t) = none) →
      add_to_google_sheets url net = false →
      create_guest d store [] url net
          = (.created (mkGuest d) false, store ++ [mkGuest d])
        ∧ statusCode (.created (mkGuest d) false) = 201) := by
  constructor
  · intro url net
    cases url with
    | none => simp [add_to_google_sheets_via_script]
    | some u =>
      cases net with
      | exn => simp [add_to_google_sheets_via_script]
      | status c => simp [add_to_google_sheets_via_script]
  · intro d store url net hval hexact hsim hsync
    have hany : store.any (exactPred (submittedFirstKey d) (submittedLastKey d))
        = false := by
      rw [List.find?_eq_none] at hexact
      exact List.any_eq_false.mpr (fun g hg => by simpa using hexact g hg)
    refine ⟨?_, rfl⟩
    cases hps : pySplit (submittedLastKey d).data with
    | nil => simp [create_guest, hval, hexact, hps, hany, hsync]
    | cons a b => simp [create_guest, hval, hexact, hps, hsim a b hps, hany, hsync]

/-- C7 witness: unconfigured sync URL — the sync reports `false`, yet the
insert succeeds with a 201. -/
theorem sheets_sync_isolation_witness :
    (add_to_google_sheets_via_script (some "https://script.example")
        (.status 500) = true
      ↔ ((some "https://script.example" : Option String) ≠ none
          ∧ SheetsResult.status 500 = .status 200))
    ∧ (create_guest reqAnaGarciaLopez [] [] none .exn
          = (.created (mkGuest reqAnaGarciaLopez) false, [] ++ [mkGuest reqAnaGarciaLopez])
        ∧ statusCode (.created (mkGuest reqAnaGarciaLopez) false) = 201) :=
  ⟨sheets_sync_isolation.1 (some "https://script.example") (.status 500),
   sheets_sync_isolation.2 reqAnaGarciaLopez [] none .exn
     (by decide) rfl (fun _ _ _ => rfl) rfl⟩

/-- C8: the validation loop checks nombre, apellidos, asistencia, acompanado
in that order and reports the first absent-or-empty one; when it fires, the
endpoint answers 400 with a message naming that field and the store is
untouched. -/
theorem required_field_validation :
    (∀ d : RequestData, missingRequired d = missingRequiredSpec d)
    ∧ (∀ (d : RequestData) (store concurrent : List Guest) (url : Option String)
        (net : SheetsResult) (f : String),
      missingRequired d = some f →
      create_guest d store concurrent url net = (.missingField f, store)
        ∧ statusCode (.missingField f) = 400
        ∧ errorMessage (.missingField f) = some ("Missing required field: " ++ f)) :=
  ⟨missingRequired_eq_spec,
   fun d store concurrent url net f h =>
     ⟨by simp [create_guest, h], rfl, rfl⟩⟩

/-- C8 witness: the spec's example — `asistencia` absent — yields the 400
naming `asistencia`, with a non-empty store left unchanged. -/
theorem required_field_validation_witness :
    missingRequired reqNoAsistencia = missingRequiredSpec reqNoAsistencia
    ∧ (create_guest reqNoAsistencia [anaGarciaRow] [] none .exn
        = (.missingField "asistencia", [anaGarciaRow])
      ∧ statusCode (.missingField "asistencia") = 400
      ∧ errorMessage (.missingField "asistencia")
          = some ("Missing required field: " ++ "asistencia")) :=
  ⟨required_field_validation.1 reqNoAsistencia,
   required_field_validation.2 reqNoAsistencia [anaGarciaRow] [] none .exn
     "asistencia" (by decide)⟩

/-- C9 (amended): every guest in a reachable store was built by `mkGuest`
from some request of the history, so its adult and child counts equal the
submitted integers when present and 0 when absent; the endpoint performs no
non-negativity validation (see the counterexample for a stored negative
count). -/
theorem counts_follow_submission :
    (∀ (ops : List (RequestData × Option String × SheetsResult)) (g : Guest),
      g ∈ reachState ops →
      ∃ op ∈ ops, g = mkGuest op.1
        ∧ g.adultos = op.1.adultos.getD 0 ∧ g.ninos = op.1.ninos.getD 0)
    ∧ (∀ d : RequestData, d.adultos = none → (mkGuest d).adultos = 0)
    ∧ (∀ d : RequestData, d.ninos = none → (mkGuest d).ninos = 0) := by
  refine ⟨?_, ?_, ?_⟩
  · intro ops g h
    rcases mem_foldl_intake ops [] g h with h1 | ⟨op, hop, hg⟩
    · cases h1
    · exact ⟨op, hop, hg, by rw [hg]; rfl, by rw [hg]; rfl⟩
  · intro d h
    simp [mkGuest, h]
  · intro d h
    simp [mkGuest, h]

/-- C9 counterexample: a submission with `adultos = -1`, `ninos = -2` is
accepted and stored as-is — a reachable store contains a guest with negative
counts, refuting the non-negativity claim. -/
theorem counts_nonneg_cex :
    reachState [(reqNeg, (none : Option String), SheetsResult.exn)] = [mkGuest reqNeg]
    ∧ (mkGuest reqNeg).adultos = -1
    ∧ (mkGuest reqNeg).ninos = -2
    ∧ ¬(0 ≤ (mkGuest reqNeg).adultos) := by
  decide

/-- C9 witness: the amended theorem applied to the one-request history that
stores the negative counts. -/
theorem counts_follow_submission_witness :
    mkGuest reqNeg ∈ reachState [(reqNeg, (none : Option String), SheetsResult.exn)]
    ∧ (∃ op ∈ [(reqNeg, (none : Option String), SheetsResult.exn)],
        mkGuest reqNeg = mkGuest op.1
          ∧ (mkGuest reqNeg).adultos = op.1.adultos.getD 0
          ∧ (mkGuest reqNeg).ninos = op.1.ninos.getD 0) :=
  ⟨by decide,
   counts_follow_submission.1 [(reqNeg, (none : Option String), SheetsResult.exn)]
     (mkGuest reqNeg) (by decide)⟩

/-- C10: a submission whose last-names key normalizes to the empty string
skips the partial-surname stage entirely — the endpoint never answers with
the partial-duplicate outcome for it. -/
theorem empty_lastkey_skips_similar :
    ∀ (d : RequestData) (store concurrent : List Guest) (url : Option String)
      (net : SheetsResult) (g : Guest),
    submittedLastKey d = "" →
    (create_guest d store concurrent url net).1 ≠ .conflictSimilar g := by
  intro d store concurrent url net g hlk
  cases hm : missingRequired d with
  | some f => simp [create_guest, hm]
  | none =>
    simp only [create_guest, hm]
    rw [hlk]
    by_cases hex : store.find? (exactPred (submittedFirstKey d) "") = none
    · simp only [hex]
      by_cases hany : (store ++ concurrent).any (exactPred (submittedFirstKey d) "") = true
      · simp [pySplit, pySplitAux, hany]
      · simp [pySplit, pySplitAux, hany]
    · obtain ⟨g0, hg0⟩ := Option.ne_none_iff_exists'.mp hex
      simp [hg0]

/-- C10 witness: `apellidos = " "` passes validation (a non-empty string)
but normalizes to the empty key, and the request is not answered with the
partial-duplicate outcome even against a populated store. -/
theorem empty_lastkey_skips_similar_witness :
    submittedLastKey reqBlankApellidos = ""
    ∧ (create_guest reqBlankApellidos [anaGarciaRow] [] none .exn).1
        ≠ .conflictSimilar anaGarciaRow :=
  ⟨by decide,
   empty_lastkey_skips_similar reqBlankApellidos [anaGarciaRow] [] none .exn
     anaGarciaRow (by decide)⟩

/-- C4 witness: the spec's duplicate-submission example — the same body
against a store already containing its row gives the exact-conflict
outcome, and from an empty store the same body gives 201 then 409. -/
theorem exact_match_stage_first_witness :
    (create_guest reqAnaGarciaLopez [mkGuest reqAnaGarciaLopez] [] none .exn
        = (.conflictExact, [mkGuest reqAnaGarciaLopez])
      ∧ statusCode .conflictExact = 409
      ∧ errorMessage .conflictExact = some exactDupMsg
      ∧ ∀ g', errorMessage .conflictExact ≠ errorMessage (.conflictSimilar g'))
    ∧ (statusCode (create_guest reqAnaGarciaLopez [] [] none .exn).1 = 201
      ∧ create_guest reqAnaGarciaLopez
            (create_guest reqAnaGarciaLopez [] [] none .exn).2 [] none .exn
          = (.conflictExact, [mkGuest reqAnaGarciaLopez])
      ∧ statusCode (create_guest reqAnaGarciaLopez
            (create_guest reqAnaGarciaLopez [] [] none .exn).2 [] none .exn).1
          = 409) :=
  ⟨exact_match_stage_first.1 reqAnaGarciaLopez [mkGuest reqAnaGarciaLopez] [] none .exn
      (mkGuest reqAnaGarciaLopez) (by decide) (by decide),
   exact_match_stage_first.2 reqAnaGarciaLopez none .exn (by decide)⟩
